import Mathlib

/-!
Verification of the inventory stock-ledger subsystem
(`inventory_system/models.py` and `inventory_system/services.py`).

The Python code is shallowly embedded as follows.

* Python `int` is `Int`; the `float` unit price is `Rat` (the code only
  compares and multiplies prices, so exact arithmetic is the faithful
  extensional model of the comparisons the claims mention).
* A Python `datetime` value is represented by its canonical ISO-8601
  rendering: the only operations the repository performs on a `datetime`
  are `isoformat()` (serialization) and `datetime.fromisoformat`
  (parsing), plus opaque generation by `datetime.now()`.  `DateTime`
  therefore wraps the canonical string, `isoformat` is the projection and
  `fromisoformat` accepts exactly the canonical renderings.
  `datetime.now()` is modelled by an explicit `now : DateTime` argument.
* `uuid.uuid4()` generation is modelled by explicit identifier arguments
  (`sku`, `tid`); freshness of a generated identifier is a hypothesis
  where a claim needs it.
* The in-memory stores of `ProductDAO` / `TransactionDAO` are Python
  dicts; they are embedded as insertion-ordered association lists with
  dict upsert semantics (overwrite in place, insert at the end).  The
  backing JSON file is a write-only mirror of this in-memory state and
  carries no extra observable behaviour, so it is not modelled.
* Python's in-place attribute mutation on a product obtained from the
  store aliases the stored object: every attribute assignment in the
  service is embedded as an immediate write-back of the updated record
  into the store, exactly where the assignment happens in the source.
-/

inductive ProductCategory where
  | ELECTRONICS
  | CLOTHING
  | FOOD
  | BOOKS
  | TOYS
  | HOME
  | OFFICE
  | OTHER
deriving DecidableEq

inductive InventoryStatus where
  | IN_STOCK
  | LOW_STOCK
  | OUT_OF_STOCK
  | DISCONTINUED
deriving DecidableEq

/-- Enum name lookup, `ProductCategory[name]` in Python (`None` models the
`KeyError`). -/
def categoryOfName (s : String) : Option ProductCategory :=
  if s = "ELECTRONICS" then some .ELECTRONICS
  else if s = "CLOTHING" then some .CLOTHING
  else if s = "FOOD" then some .FOOD
  else if s = "BOOKS" then some .BOOKS
  else if s = "TOYS" then some .TOYS
  else if s = "HOME" then some .HOME
  else if s = "OFFICE" then some .OFFICE
  else if s = "OTHER" then some .OTHER
  else none

/-- `member.name` of the category enum. -/
def categoryName : ProductCategory → String
  | .ELECTRONICS => "ELECTRONICS"
  | .CLOTHING => "CLOTHING"
  | .FOOD => "FOOD"
  | .BOOKS => "BOOKS"
  | .TOYS => "TOYS"
  | .HOME => "HOME"
  | .OFFICE => "OFFICE"
  | .OTHER => "OTHER"

def natOfDigits (cs : List Char) : Nat :=
  cs.foldl (fun a c => a * 10 + (c.toNat - 48)) 0

/-- Checks a canonical `YYYY-MM-DD` date rendering. -/
def isoDatePart (cs : List Char) : Bool :=
  match cs with
  | [y1, y2, y3, y4, h1, mo1, mo2, h2, d1, d2] =>
    ([y1, y2, y3, y4, mo1, mo2, d1, d2].all Char.isDigit) && h1 == '-' && h2 == '-'
      && 1 ≤ natOfDigits [mo1, mo2] && natOfDigits [mo1, mo2] ≤ 12
      && 1 ≤ natOfDigits [d1, d2] && natOfDigits [d1, d2] ≤ 31
  | _ => false

/-- Checks a canonical `HH:MM:SS` time rendering. -/
def isoTimePart (cs : List Char) : Bool :=
  match cs with
  | [a1, a2, c1, b1, b2, c2, s1, s2] =>
    ([a1, a2, b1, b2, s1, s2].all Char.isDigit) && c1 == ':' && c2 == ':'
      && natOfDigits [a1, a2] ≤ 23 && natOfDigits [b1, b2] ≤ 59 && natOfDigits [s1, s2] ≤ 59
  | _ => false

/-- Checks a canonical `datetime.isoformat()` rendering:
`YYYY-MM-DDTHH:MM:SS` with an optional `.ffffff` microsecond part. -/
def isCanonicalIso (s : String) : Bool :=
  let cs := s.data
  isoDatePart (cs.take 10) &&
    match cs.drop 10 with
    | 'T' :: tr =>
      isoTimePart (tr.take 8) &&
        (match tr.drop 8 with
         | [] => true
         | '.' :: ds => ds.length == 6 && ds.all Char.isDigit
         | _ => false)
    | _ => false

/-- Python `datetime`, represented by its canonical ISO-8601 rendering
(see the header comment). -/
structure DateTime where
  iso : String
deriving DecidableEq

/-- `datetime.isoformat()`. -/
def DateTime.isoformat (d : DateTime) : String := d.iso

/-- `datetime.fromisoformat`, restricted to canonical renderings; `none`
models the `ValueError` on an unparseable string. -/
def isoParse (s : String) : Option DateTime :=
  if isCanonicalIso s then some ⟨s⟩ else none

/-- `Product` dataclass from `models.py`. -/
structure Product where
  name : String
  description : String
  category : ProductCategory
  price : Rat
  stock_quantity : Int
  sku : String
  created_at : DateTime
  updated_at : DateTime
deriving DecidableEq

/-- The derived `Product.status` property from `models.py`. -/
def Product.status (p : Product) : InventoryStatus :=
  if p.stock_quantity ≤ 0 then .OUT_OF_STOCK
  else if p.stock_quantity < 5 then .LOW_STOCK
  else .IN_STOCK

/-- `Transaction` dataclass from `models.py`. -/
structure Transaction where
  product_sku : String
  quantity : Int
  transaction_type : String
  transaction_id : String
  timestamp : DateTime
  notes : String
deriving DecidableEq

/-- JSON-compatible values occurring in the serialized records. -/
inductive JVal where
  | str : String → JVal
  | int : Int → JVal
  | rat : Rat → JVal
deriving DecidableEq

/-- A Python dict of JSON-compatible values, in insertion order. -/
abbrev JDict := List (String × JVal)

def lookupKey (m : JDict) (k : String) : Option JVal :=
  match m.find? (fun kv => kv.fst == k) with
  | some kv => some kv.snd
  | none => none

def getStr (m : JDict) (k : String) : Option String :=
  match lookupKey m k with
  | some (.str s) => some s
  | _ => none

def getInt (m : JDict) (k : String) : Option Int :=
  match lookupKey m k with
  | some (.int n) => some n
  | _ => none

def getRat (m : JDict) (k : String) : Option Rat :=
  match lookupKey m k with
  | some (.rat q) => some q
  | _ => none

/-- `Product.to_dict` from `models.py`. -/
def Product.to_dict (p : Product) : JDict :=
  [("sku", .str p.sku),
   ("name", .str p.name),
   ("description", .str p.description),
   ("category", .str (categoryName p.category)),
   ("price", .rat p.price),
   ("stock_quantity", .int p.stock_quantity),
   ("created_at", .str p.created_at.isoformat),
   ("updated_at", .str p.updated_at.isoformat)]

/-- `Product.from_dict` from `models.py`; `none` models the exception
raised on a missing key, unknown enum name or unparseable timestamp.
Fields are read in the source's evaluation order. -/
def Product.from_dict (m : JDict) : Option Product :=
  match getStr m "name" with
  | none => none
  | some name =>
    match getStr m "description" with
    | none => none
    | some description =>
      match getStr m "category" with
      | none => none
      | some catName =>
        match categoryOfName catName with
        | none => none
        | some category =>
          match getRat m "price" with
          | none => none
          | some price =>
            match getInt m "stock_quantity" with
            | none => none
            | some stock_quantity =>
              match getStr m "sku" with
              | none => none
              | some sku =>
                match getStr m "created_at" with
                | none => none
                | some ca =>
                  match isoParse ca with
                  | none => none
                  | some created_at =>
                    match getStr m "updated_at" with
                    | none => none
                    | some ua =>
                      match isoParse ua with
                      | none => none
                      | some updated_at =>
                        some ⟨name, description, category, price,
                              stock_quantity, sku, created_at, updated_at⟩

/-- `Transaction.to_dict` from `models.py`. -/
def Transaction.to_dict (t : Transaction) : JDict :=
  [("transaction_id", .str t.transaction_id),
   ("product_sku", .str t.product_sku),
   ("quantity", .int t.quantity),
   ("transaction_type", .str t.transaction_type),
   ("timestamp", .str t.timestamp.isoformat),
   ("notes", .str t.notes)]

/-- `Transaction.from_dict` from `models.py`.  Note the source reads
`notes` with `data.get('notes', "")`, so a missing `notes` key defaults
to the empty string instead of failing. -/
def Transaction.from_dict (m : JDict) : Option Transaction :=
  match getStr m "product_sku" with
  | none => none
  | some product_sku =>
    match getInt m "quantity" with
    | none => none
    | some quantity =>
      match getStr m "transaction_type" with
      | none => none
      | some transaction_type =>
        match getStr m "transaction_id" with
        | none => none
        | some transaction_id =>
          match getStr m "timestamp" with
          | none => none
          | some ts =>
            match isoParse ts with
            | none => none
            | some timestamp =>
              let notes :=
                match lookupKey m "notes" with
                | some (.str s) => s
                | _ => ""
              some ⟨product_sku, quantity, transaction_type,
                    transaction_id, timestamp, notes⟩

/-! ### Persistence layer (`ProductDAO` / `TransactionDAO` in-memory state) -/

/-- The `ProductDAO.products` dict: sku keys in insertion order. -/
abbrev PMap := List (String × Product)

/-- Dict read, `self.products.get(sku)`. -/
def pget (m : PMap) (k : String) : Option Product :=
  match m.find? (fun kv => kv.fst == k) with
  | some kv => some kv.snd
  | none => none

/-- Dict write, `self.products[k] = p`: overwrite in place, insert at the
end. -/
def pset (m : PMap) (k : String) (p : Product) : PMap :=
  if m.any (fun kv => kv.fst == k) then
    m.map (fun kv => if kv.fst == k then (k, p) else kv)
  else
    m ++ [(k, p)]

/-- `ProductDAO.save`: a pre-existing sku gets its `updated_at` stamped
with the current time before the dict write; a fresh sku is stored
unchanged. -/
def productSave (now : DateTime) (m : PMap) (p : Product) : PMap :=
  if m.any (fun kv => kv.fst == p.sku) then
    pset m p.sku { p with updated_at := now }
  else
    pset m p.sku p

/-- `ProductDAO.delete`: returns whether the sku existed. -/
def pdelete (m : PMap) (k : String) : Bool × PMap :=
  if m.any (fun kv => kv.fst == k) then
    (true, m.filter (fun kv => !(kv.fst == k)))
  else
    (false, m)

/-- `TransactionDAO.save`: dict upsert keyed by `transaction_id`. -/
def tSave (ts : List Transaction) (t : Transaction) : List Transaction :=
  if ts.any (fun u => u.transaction_id == t.transaction_id) then
    ts.map (fun u => if u.transaction_id == t.transaction_id then t else u)
  else
    ts ++ [t]

/-! ### Inventory service (`services.py`) -/

/-- The two stores owned by `InventoryService`. -/
structure SvcState where
  products : PMap
  transactions : List Transaction
deriving DecidableEq

/-- Python `str.upper()` (the category names involved are ASCII, where
upper-casing is per-character). -/
def strUpper (s : String) : String :=
  ⟨s.data.map Char.toUpper⟩

/-- `ProductCategory[category.upper()]` as used by the service. -/
def parseCategory (category : String) : Option ProductCategory :=
  categoryOfName (strUpper category)

/-- `InventoryService._record_transaction` (the generated uuid is the
explicit `tid` argument, the generated timestamp is `now`). -/
def recordTransaction (tid : String) (now : DateTime) (product_sku : String)
    (quantity : Int) (transaction_type : String) (notes : String)
    (st : SvcState) : SvcState :=
  let t : Transaction := ⟨product_sku, quantity, transaction_type, tid, now, notes⟩
  { st with transactions := tSave st.transactions t }

/-- `InventoryService.add_product`.  `Except.error` models the raised
`ValueError`. -/
def add_product (now : DateTime) (sku tid : String) (name description : String)
    (category : String) (price : Rat) (stock_quantity : Int)
    (st : SvcState) : Except String Product × SvcState :=
  match parseCategory category with
  | none => (.error ("Categoría inválida: " ++ category), st)
  | some category_enum =>
    if price ≤ 0 then
      (.error "El precio debe ser mayor que cero", st)
    else if stock_quantity < 0 then
      (.error "La cantidad en stock no puede ser negativa", st)
    else
      let product : Product :=
        ⟨name, description, category_enum, price, stock_quantity, sku, now, now⟩
      let st1 := { st with products := productSave now st.products product }
      let st2 :=
        if stock_quantity > 0 then
          recordTransaction tid now product.sku stock_quantity "purchase"
            ("Inventario inicial para " ++ product.name) st1
        else st1
      (.ok product, st2)

/-- The optional keyword arguments accepted by
`InventoryService.update_product`. -/
structure UpdateArgs where
  name : Option String
  description : Option String
  category : Option String
  price : Option Rat
deriving DecidableEq

/-- The `if 'name' in kwargs` assignment of `update_product`: the aliased
store entry is written through immediately. -/
def stepName (a : Option String) (p : Product) (m : PMap) (sku : String) :
    Product × PMap :=
  match a with
  | none => (p, m)
  | some n =>
    let q := { p with name := n }
    (q, pset m sku q)

/-- The `if 'description' in kwargs` assignment of `update_product`. -/
def stepDescription (a : Option String) (p : Product) (m : PMap) (sku : String) :
    Product × PMap :=
  match a with
  | none => (p, m)
  | some n =>
    let q := { p with description := n }
    (q, pset m sku q)

/-- The `if 'category' in kwargs` block of `update_product`: validate,
then assign through the alias. -/
def stepCategory (a : Option String) (p : Product) (m : PMap) (sku : String) :
    Except String (Product × PMap) :=
  match a with
  | none => .ok (p, m)
  | some cs =>
    match parseCategory cs with
    | none => .error ("Categoría inválida: " ++ cs)
    | some c =>
      let q := { p with category := c }
      .ok (q, pset m sku q)

/-- The `if 'price' in kwargs` block of `update_product`. -/
def stepPrice (a : Option Rat) (p : Product) (m : PMap) (sku : String) :
    Except String (Product × PMap) :=
  match a with
  | none => .ok (p, m)
  | some pr =>
    if pr ≤ 0 then .error "El precio debe ser mayor que cero"
    else
      let q := { p with price := pr }
      .ok (q, pset m sku q)

/-- `InventoryService.update_product`.  Result `.ok none` is Python's
`None` (unknown sku), `.error` a raised `ValueError`; partial in-place
mutations made before a raise stay in the returned store, as they do in
the source through object aliasing. -/
def update_product (now : DateTime) (sku : String) (args : UpdateArgs)
    (st : SvcState) : Except String (Option Product) × SvcState :=
  match pget st.products sku with
  | none => (.ok none, st)
  | some p0 =>
    let r1 := stepName args.name p0 st.products sku
    let r2 := stepDescription args.description r1.1 r1.2 sku
    match stepCategory args.category r2.1 r2.2 sku with
    | .error e => (.error e, { st with products := r2.2 })
    | .ok r3 =>
      match stepPrice args.price r3.1 r3.2 sku with
      | .error e => (.error e, { st with products := r3.2 })
      | .ok r4 =>
        let p5 := { r4.1 with updated_at := now }
        let m5 := pset r4.2 sku p5
        (.ok (some p5), { st with products := productSave now m5 p5 })

/-- `InventoryService.get_product`. -/
def get_product (st : SvcState) (sku : String) : Option Product :=
  pget st.products sku

/-- `InventoryService.delete_product`. -/
def delete_product (now : DateTime) (tid : String) (sku : String)
    (st : SvcState) : Bool × SvcState :=
  match pget st.products sku with
  | none => (false, st)
  | some product =>
    let st1 :=
      if product.stock_quantity > 0 then
        recordTransaction tid now sku (-product.stock_quantity) "adjustment"
          ("Eliminación del producto " ++ product.name) st
      else st
    let r := pdelete st1.products sku
    (r.1, { st1 with products := r.2 })

/-- `InventoryService.add_stock`. -/
def add_stock (now : DateTime) (tid : String) (sku : String) (quantity : Int)
    (notes : String) (st : SvcState) : (Bool × String) × SvcState :=
  if quantity ≤ 0 then
    ((false, "La cantidad debe ser mayor que cero"), st)
  else
    match pget st.products sku with
    | none => ((false, "Producto con SKU " ++ sku ++ " no encontrado"), st)
    | some product =>
      let updated := { product with
        stock_quantity := product.stock_quantity + quantity,
        updated_at := now }
      let st1 := { st with products := productSave now st.products updated }
      let st2 := recordTransaction tid now sku quantity "purchase" notes st1
      ((true, "Stock actualizado. Nuevo stock: " ++ toString updated.stock_quantity), st2)

/-- `InventoryService.remove_stock`. -/
def remove_stock (now : DateTime) (tid : String) (sku : String) (quantity : Int)
    (notes : String) (st : SvcState) : (Bool × String) × SvcState :=
  if quantity ≤ 0 then
    ((false, "La cantidad debe ser mayor que cero"), st)
  else
    match pget st.products sku with
    | none => ((false, "Producto con SKU " ++ sku ++ " no encontrado"), st)
    | some product =>
      if product.stock_quantity < quantity then
        ((false, "Stock insuficiente. Disponible: " ++ toString product.stock_quantity), st)
      else
        let updated := { product with
          stock_quantity := product.stock_quantity - quantity,
          updated_at := now }
        let st1 := { st with products := productSave now st.products updated }
        let st2 := recordTransaction tid now sku (-quantity) "sale" notes st1
        ((true, "Stock actualizado. Nuevo stock: " ++ toString updated.stock_quantity), st2)

/-- `InventoryService.adjust_stock`. -/
def adjust_stock (now : DateTime) (tid : String) (sku : String) (new_quantity : Int)
    (notes : String) (st : SvcState) : (Bool × String) × SvcState :=
  if new_quantity < 0 then
    ((false, "La cantidad no puede ser negativa"), st)
  else
    match pget st.products sku with
    | none => ((false, "Producto con SKU " ++ sku ++ " no encontrado"), st)
    | some product =>
      let difference := new_quantity - product.stock_quantity
      let updated := { product with
        stock_quantity := new_quantity,
        updated_at := now }
      let st1 := { st with products := productSave now st.products updated }
      let st2 := recordTransaction tid now sku difference "adjustment" notes st1
      ((true, "Stock ajustado a " ++ toString new_quantity), st2)

/-- `InventoryService.get_all_products` (via `ProductDAO.get_all`). -/
def get_all_products (st : SvcState) : List Product :=
  st.products.map Prod.snd

/-- `InventoryService.get_low_stock_products`. -/
def get_low_stock_products (threshold : Int) (st : SvcState) : List Product :=
  (get_all_products st).filter (fun p => p.stock_quantity ≤ threshold)

/-! ### Basic lemmas about the store operations -/

/-- The stored-product invariant of §3 of the spec. -/
def POk (p : Product) : Prop := 0 < p.price ∧ 0 ≤ p.stock_quantity

/-- Every product in a product map satisfies the invariant. -/
def InvP (m : PMap) : Prop := ∀ kv ∈ m, POk kv.snd

/-- Every product in the service state satisfies the invariant. -/
def StoreInv (st : SvcState) : Prop := InvP st.products

lemma pget_cons (kv : String × Product) (t : PMap) (k : String) :
    pget (kv :: t) k = if (kv.fst == k) = true then some kv.snd else pget t k := by
  unfold pget
  rw [List.find?_cons]
  cases h : (kv.fst == k) with
  | false => simp [h]
  | true => simp [h]

lemma pget_some_any {m : PMap} {k : String} {p : Product}
    (h : pget m k = some p) : m.any (fun kv => kv.fst == k) = true := by
  unfold pget at h
  cases hf : m.find? (fun kv => kv.fst == k) with
  | none => rw [hf] at h; cases h
  | some kv =>
    have hp := List.find?_some hf
    exact List.any_eq_true.mpr ⟨kv, List.mem_of_find?_eq_some hf, hp⟩

lemma pget_none_any {m : PMap} {k : String}
    (h : pget m k = none) : m.any (fun kv => kv.fst == k) = false := by
  unfold pget at h
  cases hf : m.find? (fun kv => kv.fst == k) with
  | some kv => rw [hf] at h; cases h
  | none =>
    rw [List.any_eq_false]
    intro kv hkv
    have := List.find?_eq_none.mp hf kv hkv
    simpa using this

lemma pget_overwrite {m : PMap} {k : String} (p : Product)
    (h : m.any (fun kv => kv.fst == k) = true) :
    pget (m.map (fun kv => if kv.fst == k then (k, p) else kv)) k = some p := by
  induction m with
  | nil => simp at h
  | cons kv t ih =>
    by_cases hk : (kv.fst == k) = true
    · rw [List.map_cons, if_pos hk, pget_cons]
      simp
    · have hk2 : (kv.fst == k) = false := by simpa using hk
      have ht : t.any (fun kv => kv.fst == k) = true := by
        rw [List.any_cons, hk2] at h
        simpa using h
      rw [List.map_cons, if_neg hk, pget_cons, if_neg hk]
      exact ih ht

lemma pget_append_self {m : PMap} {k : String} (p : Product)
    (h : m.any (fun kv => kv.fst == k) = false) :
    pget (m ++ [(k, p)]) k = some p := by
  induction m with
  | nil =>
    rw [List.nil_append, pget_cons]
    simp
  | cons kv t ih =>
    rw [List.any_cons, Bool.or_eq_false_iff] at h
    rw [List.cons_append, pget_cons, if_neg (by simp [h.1])]
    exact ih h.2

lemma pget_overwrite_ne {m : PMap} {k : String} (p : Product) {k2 : String}
    (h : k2 ≠ k) :
    pget (m.map (fun kv => if kv.fst == k then (k, p) else kv)) k2 = pget m k2 := by
  have h1 : (k == k2) = false := beq_eq_false_iff_ne.mpr (Ne.symm h)
  induction m with
  | nil => rfl
  | cons kv t ih =>
    by_cases hk : (kv.fst == k) = true
    · have hkk : kv.fst = k := by simpa using hk
      have h2 : (kv.fst == k2) = false := by rw [hkk]; exact h1
      rw [List.map_cons, if_pos hk, pget_cons, pget_cons, if_neg (by simp [h1]),
        if_neg (by simp [h2])]
      exact ih
    · rw [List.map_cons, if_neg hk, pget_cons, pget_cons]
      by_cases hk2 : (kv.fst == k2) = true
      · rw [if_pos hk2, if_pos hk2]
      · rw [if_neg hk2, if_neg hk2]
        exact ih

lemma pget_append_ne {m : PMap} {k : String} (p : Product) {k2 : String}
    (h : k2 ≠ k) :
    pget (m ++ [(k, p)]) k2 = pget m k2 := by
  have h1 : (k == k2) = false := beq_eq_false_iff_ne.mpr (Ne.symm h)
  induction m with
  | nil =>
    rw [List.nil_append, pget_cons, if_neg (by simp [h1])]
  | cons kv t ih =>
    rw [List.cons_append, pget_cons, pget_cons]
    by_cases hk2 : (kv.fst == k2) = true
    · rw [if_pos hk2, if_pos hk2]
    · rw [if_neg hk2, if_neg hk2]
      exact ih

lemma pget_pset_self {m : PMap} {k : String} (p : Product)
    (h : m.any (fun kv => kv.fst == k) = true) :
    pget (pset m k p) k = some p := by
  unfold pset
  rw [if_pos h]
  exact pget_overwrite p h

lemma pget_pset_ne {m : PMap} {k : String} (p : Product) {k2 : String}
    (h : k2 ≠ k) : pget (pset m k p) k2 = pget m k2 := by
  unfold pset
  split
  · exact pget_overwrite_ne p h
  · exact pget_append_ne p h

lemma tSave_of_not_mem {ts : List Transaction} {t : Transaction}
    (h : t.transaction_id ∉ ts.map (fun u => u.transaction_id)) :
    tSave ts t = ts ++ [t] := by
  unfold tSave
  rw [if_neg]
  intro hc
  rw [List.any_eq_true] at hc
  obtain ⟨u, hu, hbeq⟩ := hc
  exact h (List.mem_map.mpr ⟨u, hu, by simpa using hbeq⟩)

lemma pget_POk {m : PMap} {k : String} {p : Product}
    (hm : InvP m) (h : pget m k = some p) : POk p := by
  unfold pget at h
  cases hf : m.find? (fun kv => kv.fst == k) with
  | none => rw [hf] at h; cases h
  | some kv =>
    rw [hf] at h
    injection h with h
    rw [← h]
    exact hm kv (List.mem_of_find?_eq_some hf)

lemma invP_pset {m : PMap} {k : String} {p : Product}
    (hm : InvP m) (hp : POk p) : InvP (pset m k p) := by
  intro kv hkv
  unfold pset at hkv
  split at hkv
  · obtain ⟨kv0, h0, heq⟩ := List.mem_map.mp hkv
    by_cases hk : (kv0.fst == k) = true
    · rw [if_pos hk] at heq
      rw [← heq]
      exact hp
    · rw [if_neg hk] at heq
      rw [← heq]
      exact hm kv0 h0
  · rcases List.mem_append.mp hkv with h1 | h1
    · exact hm kv h1
    · simp only [List.mem_singleton] at h1
      rw [h1]
      exact hp

lemma invP_productSave {now : DateTime} {m : PMap} {p : Product}
    (hm : InvP m) (hp : POk p) : InvP (productSave now m p) := by
  unfold productSave
  split
  · exact invP_pset hm hp
  · exact invP_pset hm hp

lemma invP_filter {m : PMap} {f : String × Product → Bool}
    (hm : InvP m) : InvP (m.filter f) :=
  fun kv hkv => hm kv (List.mem_of_mem_filter hkv)

/-! ### Concrete sample values used by witnesses and counterexamples -/

def exTime : DateTime := ⟨"2024-01-01T00:00:00"⟩

def exTime2 : DateTime := ⟨"2024-01-02T00:00:00"⟩

def exProduct : Product :=
  ⟨"Widget", "Una descripcion", ProductCategory.FOOD, 10, 3, "SKU1", exTime, exTime⟩

def exState : SvcState := ⟨[("SKU1", exProduct)], []⟩

/-! ### Claims -/

/-- C6: the derived product status is a pure function of `stock_quantity`
alone: a nonpositive quantity yields `OUT_OF_STOCK`, a quantity strictly
between 0 and 5 yields `LOW_STOCK`, a quantity of at least 5 yields
`IN_STOCK`, and `DISCONTINUED` is never produced. -/
theorem C6_status_pure (p : Product) :
    (p.stock_quantity ≤ 0 → p.status = InventoryStatus.OUT_OF_STOCK)
    ∧ (0 < p.stock_quantity → p.stock_quantity < 5 →
        p.status = InventoryStatus.LOW_STOCK)
    ∧ (5 ≤ p.stock_quantity → p.status = InventoryStatus.IN_STOCK)
    ∧ p.status ≠ InventoryStatus.DISCONTINUED
    ∧ (∀ q : Product, q.stock_quantity = p.stock_quantity → q.status = p.status) := by
  refine ⟨?_, ?_, ?_, ?_, ?_⟩
  · intro h
    unfold Product.status
    rw [if_pos h]
  · intro h1 h2
    unfold Product.status
    rw [if_neg (by omega), if_pos h2]
  · intro h
    unfold Product.status
    rw [if_neg (by omega), if_neg (by omega)]
  · unfold Product.status
    split_ifs <;> simp
  · intro q hq
    unfold Product.status
    rw [hq]

/-- Witness for C6 at a concrete product with stock 3. -/
theorem C6_witness :
    exProduct.status = InventoryStatus.LOW_STOCK :=
  (C6_status_pure exProduct).2.1 (by decide) (by decide)

/-- C10: `ProductDAO.save` stamps `updated_at` with the current time when
the saved product's sku is already a key of the store, stores a product
with a fresh sku unchanged, and in both cases keeps every other field
exactly as given and leaves every other key of the store untouched. -/
theorem C10_save_refreshes_timestamp (now : DateTime) (m : PMap) (p : Product) :
    ((∃ q, pget m p.sku = some q) →
      productSave now m p = pset m p.sku { p with updated_at := now }
        ∧ pget (productSave now m p) p.sku = some { p with updated_at := now })
    ∧ (pget m p.sku = none →
      productSave now m p = m ++ [(p.sku, p)]
        ∧ pget (productSave now m p) p.sku = some p)
    ∧ (∀ k, k ≠ p.sku → pget (productSave now m p) k = pget m k) := by
  refine ⟨?_, ?_, ?_⟩
  · rintro ⟨q, hq⟩
    have hany := pget_some_any hq
    unfold productSave
    rw [if_pos hany]
    exact ⟨rfl, pget_pset_self _ hany⟩
  · intro h
    have hany := pget_none_any h
    unfold productSave
    rw [if_neg (by simp [hany])]
    constructor
    · unfold pset
      rw [if_neg (by simp [hany])]
    · unfold pset
      rw [if_neg (by simp [hany])]
      exact pget_append_self p hany
  · intro k hk
    unfold productSave
    split
    · exact pget_pset_ne _ hk
    · exact pget_pset_ne _ hk

/-- Witness for C10: overwriting an existing sku stamps the stored record
with the new time. -/
theorem C10_witness :
    pget (productSave exTime2 [("SKU1", exProduct)] exProduct) "SKU1" =
      some { exProduct with updated_at := exTime2 } :=
  ((C10_save_refreshes_timestamp exTime2 [("SKU1", exProduct)] exProduct).1
    ⟨exProduct, rfl⟩).2

/-- C3: when the requested quantity exceeds the current stock,
`remove_stock` fails with the insufficient-stock message and returns the
state completely unchanged: the stock stays, the update timestamp is not
refreshed, and no transaction is recorded. -/
theorem C3_insufficient_stock_no_mutation (now : DateTime) (tid sku : String)
    (q : Int) (notes : String) (st : SvcState) (p : Product)
    (hget : pget st.products sku = some p)
    (hs : 0 ≤ p.stock_quantity)
    (hq : p.stock_quantity < q) :
    remove_stock now tid sku q notes st =
      ((false, "Stock insuficiente. Disponible: " ++ toString p.stock_quantity), st) := by
  unfold remove_stock
  rw [if_neg (by omega)]
  simp only [hget]
  rw [if_pos hq]

/-- Witness for C3: stock 3, request 5. -/
theorem C3_witness :
    remove_stock exTime2 "T1" "SKU1" 5 "" exState =
      ((false, "Stock insuficiente. Disponible: " ++ toString exProduct.stock_quantity),
        exState) :=
  C3_insufficient_stock_no_mutation exTime2 "T1" "SKU1" 5 "" exState exProduct rfl
    (by decide) (by decide)

/-! ### Success-path equations for the stock operations -/

lemma any_pset (m : PMap) (k : String) (p : Product) :
    (pset m k p).any (fun kv => kv.fst == k) = true := by
  unfold pset
  split
  case isTrue h =>
    rw [List.any_eq_true] at h ⊢
    obtain ⟨kv, hkv, hbeq⟩ := h
    refine ⟨(k, p), List.mem_map.mpr ⟨kv, hkv, ?_⟩, by simp⟩
    rw [if_pos hbeq]
  case isFalse h =>
    rw [List.any_eq_true]
    exact ⟨(k, p), List.mem_append.mpr (Or.inr (List.mem_singleton.mpr rfl)), by simp⟩

lemma productSave_present (now : DateTime) (m : PMap) (p : Product)
    (h : m.any (fun kv => kv.fst == p.sku) = true) :
    productSave now m p = pset m p.sku { p with updated_at := now } := by
  unfold productSave
  rw [if_pos h]

lemma any_productSave (now : DateTime) (m : PMap) (p : Product) :
    (productSave now m p).any (fun kv => kv.fst == p.sku) = true := by
  unfold productSave
  split
  · exact any_pset m p.sku _
  · exact any_pset m p.sku _

lemma add_stock_eq (now : DateTime) (tid sku : String) (q : Int) (notes : String)
    (st : SvcState) (p : Product)
    (h : pget st.products sku = some p) (hq : ¬ q ≤ 0) :
    add_stock now tid sku q notes st =
      ((true, "Stock actualizado. Nuevo stock: " ++ toString (p.stock_quantity + q)),
        ⟨productSave now st.products
            { p with stock_quantity := p.stock_quantity + q, updated_at := now },
          tSave st.transactions ⟨sku, q, "purchase", tid, now, notes⟩⟩) := by
  unfold add_stock
  rw [if_neg hq]
  simp only [h]
  rfl

lemma remove_stock_eq (now : DateTime) (tid sku : String) (q : Int) (notes : String)
    (st : SvcState) (p : Product)
    (h : pget st.products sku = some p) (hq : ¬ q ≤ 0)
    (hs : ¬ p.stock_quantity < q) :
    remove_stock now tid sku q notes st =
      ((true, "Stock actualizado. Nuevo stock: " ++ toString (p.stock_quantity - q)),
        ⟨productSave now st.products
            { p with stock_quantity := p.stock_quantity - q, updated_at := now },
          tSave st.transactions ⟨sku, -q, "sale", tid, now, notes⟩⟩) := by
  unfold remove_stock
  rw [if_neg hq]
  simp only [h]
  rw [if_neg hs]
  rfl

lemma adjust_stock_eq (now : DateTime) (tid sku : String) (new_q : Int) (notes : String)
    (st : SvcState) (p : Product)
    (h : pget st.products sku = some p) (hq : ¬ new_q < 0) :
    adjust_stock now tid sku new_q notes st =
      ((true, "Stock ajustado a " ++ toString new_q),
        ⟨productSave now st.products
            { p with stock_quantity := new_q, updated_at := now },
          tSave st.transactions
            ⟨sku, new_q - p.stock_quantity, "adjustment", tid, now, notes⟩⟩) := by
  unfold adjust_stock
  rw [if_neg hq]
  simp only [h]
  rfl

lemma pget_productSave_self (now : DateTime) (m : PMap) (p : Product)
    (h : m.any (fun kv => kv.fst == p.sku) = true) :
    pget (productSave now m p) p.sku = some { p with updated_at := now } := by
  rw [productSave_present now m p h]
  exact pget_pset_self _ h

/-- C4: for an existing product and any nonnegative `new_q`, `adjust_stock`
succeeds, sets the stock to `new_q`, and appends exactly one `adjustment`
transaction whose delta is `new_q` minus the old quantity — also when the
delta is zero.  (Freshness of the generated transaction uuid and agreement
of the stored key with the record's sku are hypotheses of the embedding.) -/
theorem C4_adjust_stock_records_delta (now : DateTime) (tid sku : String)
    (new_q : Int) (notes : String) (st : SvcState) (p : Product)
    (hget : pget st.products sku = some p)
    (hsku : p.sku = sku)
    (hq : 0 ≤ new_q)
    (hfresh : tid ∉ st.transactions.map (fun u => u.transaction_id)) :
    (adjust_stock now tid sku new_q notes st).1 =
        (true, "Stock ajustado a " ++ toString new_q)
    ∧ pget (adjust_stock now tid sku new_q notes st).2.products sku =
        some { p with stock_quantity := new_q, updated_at := now }
    ∧ (adjust_stock now tid sku new_q notes st).2.transactions =
        st.transactions ++
          [⟨sku, new_q - p.stock_quantity, "adjustment", tid, now, notes⟩] := by
  subst hsku
  have hany := pget_some_any hget
  simp only [adjust_stock_eq now tid p.sku new_q notes st p hget (by omega)]
  refine ⟨trivial, ?_, ?_⟩
  · exact pget_productSave_self now st.products
      { p with stock_quantity := new_q, updated_at := now } hany
  · exact tSave_of_not_mem hfresh

/-- Witness for C4: adjusting the sample product to its current quantity
still records a delta-0 adjustment transaction. -/
theorem C4_witness :
    (adjust_stock exTime2 "T2" "SKU1" 3 "" exState).2.transactions =
      exState.transactions ++
        [⟨"SKU1", 3 - exProduct.stock_quantity, "adjustment", "T2", exTime2, ""⟩] :=
  (C4_adjust_stock_records_delta exTime2 "T2" "SKU1" 3 "" exState exProduct rfl rfl
    (by decide) (by simp [exState])).2.2

/-- C5: `add_stock(id, q)` immediately followed by `remove_stock(id, q)`
restores the product's previous stock quantity and appends exactly two
transactions: a `purchase` with delta `+q` and a `sale` with delta `-q`. -/
theorem C5_add_remove_roundtrip (now1 now2 : DateTime) (tid1 tid2 sku : String)
    (q : Int) (notes1 notes2 : String) (st : SvcState) (p : Product)
    (hget : pget st.products sku = some p)
    (hsku : p.sku = sku)
    (hs : 0 ≤ p.stock_quantity)
    (hq : 0 < q)
    (hf1 : tid1 ∉ st.transactions.map (fun u => u.transaction_id))
    (hf2 : tid2 ∉ st.transactions.map (fun u => u.transaction_id))
    (hne : tid2 ≠ tid1) :
    (∃ pf,
      pget ((remove_stock now2 tid2 sku q notes2
          (add_stock now1 tid1 sku q notes1 st).2).2).products sku = some pf
      ∧ pf.stock_quantity = p.stock_quantity)
    ∧ ((remove_stock now2 tid2 sku q notes2
          (add_stock now1 tid1 sku q notes1 st).2).2).transactions =
        st.transactions ++
          [⟨sku, q, "purchase", tid1, now1, notes1⟩,
           ⟨sku, -q, "sale", tid2, now2, notes2⟩] := by
  subst hsku
  have hany := pget_some_any hget
  simp only [add_stock_eq now1 tid1 p.sku q notes1 st p hget (by omega)]
  have hgetA : pget
      (productSave now1 st.products
        { p with stock_quantity := p.stock_quantity + q, updated_at := now1 }) p.sku =
      some { p with stock_quantity := p.stock_quantity + q, updated_at := now1 } :=
    pget_productSave_self now1 st.products
      { p with stock_quantity := p.stock_quantity + q, updated_at := now1 } hany
  have hsA : ¬ (p.stock_quantity + q) < q := by omega
  simp only [remove_stock_eq now2 tid2 p.sku q notes2
    ⟨productSave now1 st.products
        { p with stock_quantity := p.stock_quantity + q, updated_at := now1 },
      tSave st.transactions ⟨p.sku, q, "purchase", tid1, now1, notes1⟩⟩
    { p with stock_quantity := p.stock_quantity + q, updated_at := now1 }
    hgetA (by omega) hsA]
  constructor
  · have hgetR : pget
        (productSave now2
          (productSave now1 st.products
            { p with stock_quantity := p.stock_quantity + q, updated_at := now1 })
          { p with stock_quantity := p.stock_quantity + q - q, updated_at := now2 })
        p.sku =
        some { p with stock_quantity := p.stock_quantity + q - q, updated_at := now2 } :=
      pget_productSave_self now2 _ _
        (any_productSave now1 st.products
          { p with stock_quantity := p.stock_quantity + q, updated_at := now1 })
    refine ⟨_, hgetR, ?_⟩
    show p.stock_quantity + q - q = p.stock_quantity
    omega
  · rw [@tSave_of_not_mem st.transactions (Transaction.mk p.sku q "purchase" tid1 now1 notes1) hf1]
    have hf2b : (Transaction.mk p.sku (-q) "sale" tid2 now2 notes2).transaction_id ∉
        ((st.transactions ++ [Transaction.mk p.sku q "purchase" tid1 now1 notes1]).map
          (fun u => u.transaction_id)) := by
      rw [List.map_append]
      simp only [List.mem_append, List.map_cons, List.map_nil, List.mem_singleton]
      rintro (hc | hc)
      · exact hf2 hc
      · exact hne hc
    rw [tSave_of_not_mem hf2b, List.append_assoc]
    rfl

/-- Witness for C5 at the sample state with q = 2. -/
theorem C5_witness :
    ((remove_stock exTime2 "T2" "SKU1" 2 ""
        (add_stock exTime2 "T1" "SKU1" 2 "" exState).2).2).transactions =
      exState.transactions ++
        [⟨"SKU1", 2, "purchase", "T1", exTime2, ""⟩,
         ⟨"SKU1", -2, "sale", "T2", exTime2, ""⟩] :=
  (C5_add_remove_roundtrip exTime2 exTime2 "T1" "T2" "SKU1" 2 "" "" exState exProduct
    rfl rfl (by decide) (by decide) (by simp [exState]) (by simp [exState])
    (by decide)).2

def exProduct5 : Product :=
  ⟨"Gadget", "Otra descripcion", ProductCategory.TOYS, 3, 5, "SKU5", exTime, exTime⟩

/-- C7 counterexample: with threshold 5, the low-stock query returns a
product whose stock quantity is exactly 5, i.e. not strictly below the
threshold, so the query does not return exactly the products with stock
below the threshold. -/
theorem C7_counterexample :
    get_low_stock_products 5 ⟨[("SKU5", exProduct5)], []⟩ = [exProduct5]
    ∧ ¬ exProduct5.stock_quantity < 5 := by
  constructor
  · rfl
  · decide

/-- C7 (amended): the low-stock query is a pure filter over `get_all` that
returns exactly the products whose stock quantity is less than or equal to
the threshold (the source compares with `<=`, not strictly below). -/
theorem C7_low_stock_filter (t : Int) (st : SvcState) :
    ∀ p : Product, p ∈ get_low_stock_products t st ↔
      p ∈ get_all_products st ∧ p.stock_quantity ≤ t := by
  intro p
  unfold get_low_stock_products
  rw [List.mem_filter]
  constructor
  · rintro ⟨h1, h2⟩
    exact ⟨h1, by simpa using h2⟩
  · rintro ⟨h1, h2⟩
    exact ⟨h1, by simpa using h2⟩

def exArgs : UpdateArgs := ⟨some "NuevoNombre", none, some "BOGUS", none⟩

/-- C1 counterexample: `update_product` called with a new name together
with an invalid category raises the invalid-category error, yet the
stored product's name has already been changed through the aliased
in-place assignment, so the product store is not left unchanged. -/
theorem C1_counterexample :
    (update_product exTime2 "SKU1" exArgs exState).1 =
      Except.error ("Categoría inválida: BOGUS")
    ∧ pget (update_product exTime2 "SKU1" exArgs exState).2.products "SKU1" =
        some { exProduct with name := "NuevoNombre" }
    ∧ ({ exProduct with name := "NuevoNombre" } : Product) ≠ exProduct := by
  refine ⟨rfl, by decide, by decide⟩

/-- C1 (amended): validation failures in `add_product`, `add_stock`,
`remove_stock` and `adjust_stock` leave both stores unchanged, and
`update_product` raises before saving, before refreshing the update
timestamp and before touching the transaction store — but the field
assignments made before the failing check (name and description before an
invalid category; also the category before an invalid price) are already
applied to the stored product through the in-place aliasing of the store
entry. -/
theorem C1_validation_mutation_boundary :
    (∀ now sku tid name description category price qty st,
      parseCategory category = none →
        (add_product now sku tid name description category price qty st).1.isOk = false
        ∧ (add_product now sku tid name description category price qty st).2 = st)
    ∧ (∀ now sku tid name description category price qty st,
      price ≤ 0 →
        (add_product now sku tid name description category price qty st).1.isOk = false
        ∧ (add_product now sku tid name description category price qty st).2 = st)
    ∧ (∀ now sku tid name description category price qty st,
      qty < 0 →
        (add_product now sku tid name description category price qty st).1.isOk = false
        ∧ (add_product now sku tid name description category price qty st).2 = st)
    ∧ (∀ now tid sku q notes st, q ≤ 0 →
        add_stock now tid sku q notes st =
          ((false, "La cantidad debe ser mayor que cero"), st))
    ∧ (∀ now tid sku q notes st, q ≤ 0 →
        remove_stock now tid sku q notes st =
          ((false, "La cantidad debe ser mayor que cero"), st))
    ∧ (∀ now tid sku new_q notes st, new_q < 0 →
        adjust_stock now tid sku new_q notes st =
          ((false, "La cantidad no puede ser negativa"), st))
    ∧ (∀ now sku args st p cs,
      pget st.products sku = some p →
      args.category = some cs →
      parseCategory cs = none →
        (update_product now sku args st).1 =
          Except.error ("Categoría inválida: " ++ cs)
        ∧ (update_product now sku args st).2.transactions = st.transactions
        ∧ (update_product now sku args st).2.products =
            (stepDescription args.description
              (stepName args.name p st.products sku).1
              (stepName args.name p st.products sku).2 sku).2)
    ∧ (∀ now sku args st p r3 pr,
      pget st.products sku = some p →
      stepCategory args.category
        (stepDescription args.description
          (stepName args.name p st.products sku).1
          (stepName args.name p st.products sku).2 sku).1
        (stepDescription args.description
          (stepName args.name p st.products sku).1
          (stepName args.name p st.products sku).2 sku).2 sku = .ok r3 →
      args.price = some pr →
      pr ≤ 0 →
        (update_product now sku args st).1 =
          Except.error "El precio debe ser mayor que cero"
        ∧ (update_product now sku args st).2.transactions = st.transactions
        ∧ (update_product now sku args st).2.products = r3.2) := by
  refine ⟨?_, ?_, ?_, ?_, ?_, ?_, ?_, ?_⟩
  · intro now sku tid name description category price qty st h
    unfold add_product
    rw [h]
    exact ⟨rfl, rfl⟩
  · intro now sku tid name description category price qty st h
    unfold add_product
    split
    · exact ⟨rfl, rfl⟩
    · rw [if_pos h]
      exact ⟨rfl, rfl⟩
  · intro now sku tid name description category price qty st h
    unfold add_product
    split
    · exact ⟨rfl, rfl⟩
    · by_cases h1 : price ≤ 0
      · rw [if_pos h1]
        exact ⟨rfl, rfl⟩
      · rw [if_neg h1, if_pos h]
        exact ⟨rfl, rfl⟩
  · intro now tid sku q notes st h
    unfold add_stock
    rw [if_pos h]
  · intro now tid sku q notes st h
    unfold remove_stock
    rw [if_pos h]
  · intro now tid sku new_q notes st h
    unfold adjust_stock
    rw [if_pos h]
  · intro now sku args st p cs hget hcat hpc
    unfold update_product
    simp only [hget, stepCategory, hcat, hpc]
    exact ⟨trivial, trivial, trivial⟩
  · intro now sku args st p r3 pr hget hcat hprice hple
    unfold update_product
    simp only [hget]
    simp only [hcat]
    simp only [stepPrice, hprice]
    rw [if_pos hple]
    exact ⟨rfl, rfl, rfl⟩

def exArgsPrice : UpdateArgs :=
  ⟨some "NuevoNombre", none, some "FOOD", some 0⟩

/-- Witness for C1 (amended): `update_product` with a new name, a valid
category and a non-positive price raises the price error while the name
and category assignments are already visible in the stored product. -/
theorem C1_witness :
    (update_product exTime2 "SKU1" exArgsPrice exState).1 =
      Except.error "El precio debe ser mayor que cero"
    ∧ (update_product exTime2 "SKU1" exArgsPrice exState).2.products =
        [("SKU1", { exProduct with name := "NuevoNombre" })] := by
  have h := C1_validation_mutation_boundary.2.2.2.2.2.2.2 exTime2 "SKU1" exArgsPrice
    exState exProduct
    ({ exProduct with name := "NuevoNombre" },
      [("SKU1", { exProduct with name := "NuevoNombre" })])
    0 rfl rfl rfl (by decide)
  exact ⟨h.1, h.2.2⟩

lemma stepName_inv (a : Option String) (p : Product) (m : PMap) (sku : String)
    (hm : InvP m) (hp : POk p) :
    InvP (stepName a p m sku).2 ∧ POk (stepName a p m sku).1 := by
  cases a with
  | none => exact ⟨hm, hp⟩
  | some n => exact ⟨invP_pset hm hp, hp⟩

lemma stepDescription_inv (a : Option String) (p : Product) (m : PMap) (sku : String)
    (hm : InvP m) (hp : POk p) :
    InvP (stepDescription a p m sku).2 ∧ POk (stepDescription a p m sku).1 := by
  cases a with
  | none => exact ⟨hm, hp⟩
  | some n => exact ⟨invP_pset hm hp, hp⟩

lemma stepCategory_inv (a : Option String) (p : Product) (m : PMap) (sku : String)
    (hm : InvP m) (hp : POk p) :
    ∀ r, stepCategory a p m sku = .ok r → InvP r.2 ∧ POk r.1 := by
  intro r hr
  unfold stepCategory at hr
  split at hr
  · injection hr with hr
    rw [← hr]
    exact ⟨hm, hp⟩
  · split at hr
    · exact Except.noConfusion hr
    · injection hr with hr
      rw [← hr]
      exact ⟨invP_pset hm hp, hp⟩

lemma stepPrice_inv (a : Option Rat) (p : Product) (m : PMap) (sku : String)
    (hm : InvP m) (hp : POk p) :
    ∀ r, stepPrice a p m sku = .ok r → InvP r.2 ∧ POk r.1 := by
  intro r hr
  unfold stepPrice at hr
  split at hr
  · injection hr with hr
    rw [← hr]
    exact ⟨hm, hp⟩
  · split at hr
    · exact Except.noConfusion hr
    · rename_i pr hle
      injection hr with hr
      rw [← hr]
      exact ⟨invP_pset hm ⟨not_le.mp hle, hp.2⟩, ⟨not_le.mp hle, hp.2⟩⟩

lemma invP_pdelete {m : PMap} (k : String) (hm : InvP m) : InvP (pdelete m k).2 := by
  unfold pdelete
  split
  · exact invP_filter hm
  · exact hm

/-- C2: assuming every stored product satisfies price > 0 and
stock_quantity ≥ 0 before the call, every service operation preserves
this invariant, whether the call succeeds or fails. -/
theorem C2_invariant_preserved (st : SvcState) (h : StoreInv st) :
    (∀ now sku tid name description category price qty,
      StoreInv (add_product now sku tid name description category price qty st).2)
    ∧ (∀ now sku args, StoreInv (update_product now sku args st).2)
    ∧ (∀ now tid sku, StoreInv (delete_product now tid sku st).2)
    ∧ (∀ now tid sku q notes, StoreInv (add_stock now tid sku q notes st).2)
    ∧ (∀ now tid sku q notes, StoreInv (remove_stock now tid sku q notes st).2)
    ∧ (∀ now tid sku new_q notes, StoreInv (adjust_stock now tid sku new_q notes st).2) := by
  refine ⟨?_, ?_, ?_, ?_, ?_, ?_⟩
  · intro now sku tid name description category price qty
    unfold add_product recordTransaction
    split
    · exact h
    · split
      · exact h
      · split
        · exact h
        · split
          case isTrue h1 h2 h3 =>
            exact invP_productSave h ⟨not_le.mp h1, not_lt.mp h2⟩
          case isFalse h1 h2 h3 =>
            exact invP_productSave h ⟨not_le.mp h1, not_lt.mp h2⟩
  · intro now sku args
    unfold update_product
    cases hg : pget st.products sku with
    | none => exact h
    | some p0 =>
      dsimp only
      have hp0 := pget_POk h hg
      have h1 := stepName_inv args.name p0 st.products sku h hp0
      have h2 := stepDescription_inv args.description
        (stepName args.name p0 st.products sku).1
        (stepName args.name p0 st.products sku).2 sku h1.1 h1.2
      cases hc : stepCategory args.category
          (stepDescription args.description
            (stepName args.name p0 st.products sku).1
            (stepName args.name p0 st.products sku).2 sku).1
          (stepDescription args.description
            (stepName args.name p0 st.products sku).1
            (stepName args.name p0 st.products sku).2 sku).2 sku with
      | error e => exact h2.1
      | ok r3 =>
        dsimp only
        have h3 := stepCategory_inv args.category
          (stepDescription args.description
            (stepName args.name p0 st.products sku).1
            (stepName args.name p0 st.products sku).2 sku).1
          (stepDescription args.description
            (stepName args.name p0 st.products sku).1
            (stepName args.name p0 st.products sku).2 sku).2 sku h2.1 h2.2 r3 hc
        cases hpr : stepPrice args.price r3.1 r3.2 sku with
        | error e => exact h3.1
        | ok r4 =>
          dsimp only
          have h4 := stepPrice_inv args.price r3.1 r3.2 sku h3.1 h3.2 r4 hpr
          exact invP_productSave (invP_pset h4.1 h4.2) h4.2
  · intro now tid sku
    unfold delete_product recordTransaction
    cases hg : pget st.products sku with
    | none => exact h
    | some p0 =>
      dsimp only
      split
      · exact invP_pdelete sku h
      · exact invP_pdelete sku h
  · intro now tid sku q notes
    unfold add_stock recordTransaction
    split
    · exact h
    · rename_i hq
      cases hg : pget st.products sku with
      | none => exact h
      | some p0 =>
        dsimp only
        obtain ⟨hpp, hps⟩ := pget_POk h hg
        refine invP_productSave h ⟨hpp, ?_⟩
        show 0 ≤ p0.stock_quantity + q
        omega
  · intro now tid sku q notes
    unfold remove_stock recordTransaction
    split
    · exact h
    · rename_i hq
      cases hg : pget st.products sku with
      | none => exact h
      | some p0 =>
        dsimp only
        obtain ⟨hpp, hps⟩ := pget_POk h hg
        split
        · exact h
        · rename_i hlt
          refine invP_productSave h ⟨hpp, ?_⟩
          show 0 ≤ p0.stock_quantity - q
          omega
  · intro now tid sku new_q notes
    unfold adjust_stock recordTransaction
    split
    · exact h
    · rename_i hq
      cases hg : pget st.products sku with
      | none => exact h
      | some p0 =>
        dsimp only
        obtain ⟨hpp, hps⟩ := pget_POk h hg
        refine invP_productSave h ⟨hpp, ?_⟩
        show 0 ≤ new_q
        omega

/-- Witness for C2: the invariant holds of the sample state and is kept by
a concrete `add_stock` call. -/
theorem C2_witness :
    StoreInv exState ∧ StoreInv (add_stock exTime2 "T1" "SKU1" 2 "" exState).2 := by
  have hinv : StoreInv exState := by
    intro kv hkv
    simp only [exState, List.mem_singleton] at hkv
    rw [hkv]
    exact ⟨by decide, by decide⟩
  exact ⟨hinv, (C2_invariant_preserved exState hinv).2.2.2.1 exTime2 "T1" "SKU1" 2 ""⟩

/-! ### Serialization layer: well-formed mappings and the round trip -/

def productKeys : List String :=
  ["sku", "name", "description", "category", "price", "stock_quantity",
   "created_at", "updated_at"]

def transactionKeys : List String :=
  ["transaction_id", "product_sku", "quantity", "transaction_type",
   "timestamp", "notes"]

def isStrV : Option JVal → Bool
  | some (.str _) => true
  | _ => false

def isIntV : Option JVal → Bool
  | some (.int _) => true
  | _ => false

def isRatV : Option JVal → Bool
  | some (.rat _) => true
  | _ => false

def isCategoryV : Option JVal → Bool
  | some (.str s) => (categoryOfName s).isSome
  | _ => false

def isTimeV : Option JVal → Bool
  | some (.str s) => isCanonicalIso s
  | _ => false

/-- A mapping of exactly the product record layout: every field present
with the right shape, the category a valid enum name, the timestamps
canonical ISO-8601 renderings, and no key outside the layout. -/
def wellFormedProductDict (m : JDict) : Bool :=
  isStrV (lookupKey m "sku") && isStrV (lookupKey m "name")
    && isStrV (lookupKey m "description") && isCategoryV (lookupKey m "category")
    && isRatV (lookupKey m "price") && isIntV (lookupKey m "stock_quantity")
    && isTimeV (lookupKey m "created_at") && isTimeV (lookupKey m "updated_at")
    && m.all (fun kv => productKeys.contains kv.fst)

/-- A mapping of exactly the transaction record layout. -/
def wellFormedTransactionDict (m : JDict) : Bool :=
  isStrV (lookupKey m "transaction_id") && isStrV (lookupKey m "product_sku")
    && isIntV (lookupKey m "quantity") && isStrV (lookupKey m "transaction_type")
    && isTimeV (lookupKey m "timestamp") && isStrV (lookupKey m "notes")
    && m.all (fun kv => transactionKeys.contains kv.fst)

/-- Python dict equality: the same keys mapped to the same values. -/
def dictEq (a b : JDict) : Prop := ∀ k, lookupKey a k = lookupKey b k

lemma isStrV_extract {o : Option JVal} (h : isStrV o = true) :
    ∃ s, o = some (JVal.str s) := by
  cases o with
  | none => simp [isStrV] at h
  | some v =>
    cases v with
    | str s => exact ⟨s, rfl⟩
    | int n => simp [isStrV] at h
    | rat q => simp [isStrV] at h

lemma isIntV_extract {o : Option JVal} (h : isIntV o = true) :
    ∃ n, o = some (JVal.int n) := by
  cases o with
  | none => simp [isIntV] at h
  | some v =>
    cases v with
    | str s => simp [isIntV] at h
    | int n => exact ⟨n, rfl⟩
    | rat q => simp [isIntV] at h

lemma isRatV_extract {o : Option JVal} (h : isRatV o = true) :
    ∃ q, o = some (JVal.rat q) := by
  cases o with
  | none => simp [isRatV] at h
  | some v =>
    cases v with
    | str s => simp [isRatV] at h
    | int n => simp [isRatV] at h
    | rat q => exact ⟨q, rfl⟩

lemma isCategoryV_extract {o : Option JVal} (h : isCategoryV o = true) :
    ∃ s c, o = some (JVal.str s) ∧ categoryOfName s = some c := by
  cases o with
  | none => simp [isCategoryV] at h
  | some v =>
    cases v with
    | str s =>
      unfold isCategoryV at h
      rw [Option.isSome_iff_exists] at h
      obtain ⟨c, hc⟩ := h
      exact ⟨s, c, rfl, hc⟩
    | int n => simp [isCategoryV] at h
    | rat q => simp [isCategoryV] at h

lemma isTimeV_extract {o : Option JVal} (h : isTimeV o = true) :
    ∃ s, o = some (JVal.str s) ∧ isCanonicalIso s = true := by
  cases o with
  | none => simp [isTimeV] at h
  | some v =>
    cases v with
    | str s => exact ⟨s, rfl, h⟩
    | int n => simp [isTimeV] at h
    | rat q => simp [isTimeV] at h

lemma lookup_mem {m : JDict} {k : String} {v : JVal}
    (h : lookupKey m k = some v) : ∃ kv, kv ∈ m ∧ kv.fst = k := by
  unfold lookupKey at h
  cases hf : m.find? (fun kv => kv.fst == k) with
  | none => rw [hf] at h; cases h
  | some kv =>
    have hm := List.mem_of_find?_eq_some hf
    have hp := List.find?_some hf
    exact ⟨kv, hm, by simpa using hp⟩

lemma lookupKey_cons_self (a : String) (v : JVal) (t : JDict) :
    lookupKey ((a, v) :: t) a = some v := by
  unfold lookupKey
  rw [List.find?_cons]
  simp

lemma lookupKey_cons_ne (a : String) (v : JVal) (t : JDict) (k : String)
    (h : k ≠ a) : lookupKey ((a, v) :: t) k = lookupKey t k := by
  have hb : (a == k) = false := beq_eq_false_iff_ne.mpr (Ne.symm h)
  unfold lookupKey
  rw [List.find?_cons]
  simp only [hb]

lemma categoryName_of {s : String} {c : ProductCategory}
    (h : categoryOfName s = some c) : categoryName c = s := by
  unfold categoryOfName at h
  split_ifs at h with h1 h2 h3 h4 h5 h6 h7 h8 <;>
    (injection h with h; subst h
     first
       | exact h1.symm
       | exact h2.symm
       | exact h3.symm
       | exact h4.symm
       | exact h5.symm
       | exact h6.symm
       | exact h7.symm
       | exact h8.symm)

lemma lookupKey_nil (k : String) : lookupKey [] k = none := rfl

lemma toDict_sku (p : Product) :
    lookupKey p.to_dict "sku" = some (.str p.sku) := rfl

lemma toDict_name (p : Product) :
    lookupKey p.to_dict "name" = some (.str p.name) := rfl

lemma toDict_description (p : Product) :
    lookupKey p.to_dict "description" = some (.str p.description) := rfl

lemma toDict_category (p : Product) :
    lookupKey p.to_dict "category" = some (.str (categoryName p.category)) := rfl

lemma toDict_price (p : Product) :
    lookupKey p.to_dict "price" = some (.rat p.price) := rfl

lemma toDict_stock (p : Product) :
    lookupKey p.to_dict "stock_quantity" = some (.int p.stock_quantity) := rfl

lemma toDict_created (p : Product) :
    lookupKey p.to_dict "created_at" = some (.str p.created_at.isoformat) := rfl

lemma toDict_updated (p : Product) :
    lookupKey p.to_dict "updated_at" = some (.str p.updated_at.isoformat) := rfl

lemma toDict_tid (t : Transaction) :
    lookupKey t.to_dict "transaction_id" = some (.str t.transaction_id) := rfl

lemma toDict_psku (t : Transaction) :
    lookupKey t.to_dict "product_sku" = some (.str t.product_sku) := rfl

lemma toDict_qty (t : Transaction) :
    lookupKey t.to_dict "quantity" = some (.int t.quantity) := rfl

lemma toDict_ttype (t : Transaction) :
    lookupKey t.to_dict "transaction_type" = some (.str t.transaction_type) := rfl

lemma toDict_ts (t : Transaction) :
    lookupKey t.to_dict "timestamp" = some (.str t.timestamp.isoformat) := rfl

lemma toDict_notes (t : Transaction) :
    lookupKey t.to_dict "notes" = some (.str t.notes) := rfl

/-- C8: for every mapping of the exact product or transaction record
layout (all fields present and well typed, enum names valid, timestamps
canonical ISO-8601 strings), converting to a record and back to a mapping
reproduces the mapping exactly, as Python dict equality: all fields
preserved, the enum serialized as its symbolic name, the timestamps as
ISO-8601 strings. -/
theorem C8_roundtrip (m : JDict) :
    (wellFormedProductDict m = true →
      ∃ p, Product.from_dict m = some p ∧ dictEq (Product.to_dict p) m)
    ∧ (wellFormedTransactionDict m = true →
      ∃ t, Transaction.from_dict m = some t ∧ dictEq (Transaction.to_dict t) m) := by
  constructor
  · intro hwf
    unfold wellFormedProductDict at hwf
    simp only [Bool.and_eq_true] at hwf
    obtain ⟨⟨⟨⟨⟨⟨⟨⟨h1, h2⟩, h3⟩, h4⟩, h5⟩, h6⟩, h7⟩, h8⟩, hall⟩ := hwf
    obtain ⟨sk, hsk⟩ := isStrV_extract h1
    obtain ⟨nm, hnm⟩ := isStrV_extract h2
    obtain ⟨ds, hds⟩ := isStrV_extract h3
    obtain ⟨cs, c, hcs, hc⟩ := isCategoryV_extract h4
    obtain ⟨pr, hpr⟩ := isRatV_extract h5
    obtain ⟨n, hn⟩ := isIntV_extract h6
    obtain ⟨ca, hca, hcaiso⟩ := isTimeV_extract h7
    obtain ⟨ua, hua, huaiso⟩ := isTimeV_extract h8
    refine ⟨⟨nm, ds, c, pr, n, sk, ⟨ca⟩, ⟨ua⟩⟩, ?_, ?_⟩
    · simp only [Product.from_dict, getStr, getInt, getRat, hnm, hds, hcs, hc,
        hpr, hn, hsk, hca, hua, isoParse, hcaiso, huaiso, if_true]
    · intro k
      by_cases e1 : k = "sku"
      · subst e1
        rw [toDict_sku]
        exact hsk.symm
      by_cases e2 : k = "name"
      · subst e2
        rw [toDict_name]
        exact hnm.symm
      by_cases e3 : k = "description"
      · subst e3
        rw [toDict_description]
        exact hds.symm
      by_cases e4 : k = "category"
      · subst e4
        rw [toDict_category]
        rw [categoryName_of hc]
        exact hcs.symm
      by_cases e5 : k = "price"
      · subst e5
        rw [toDict_price]
        exact hpr.symm
      by_cases e6 : k = "stock_quantity"
      · subst e6
        rw [toDict_stock]
        exact hn.symm
      by_cases e7 : k = "created_at"
      · subst e7
        rw [toDict_created]
        exact hca.symm
      by_cases e8 : k = "updated_at"
      · subst e8
        rw [toDict_updated]
        exact hua.symm
      have hnone : lookupKey m k = none := by
        cases hlk : lookupKey m k with
        | none => rfl
        | some v =>
          exfalso
          obtain ⟨kv, hmem, hfst⟩ := lookup_mem hlk
          have hcont := List.all_eq_true.mp hall kv hmem
          rw [hfst] at hcont
          have hk : k ∈ productKeys := by simpa using hcont
          simp only [productKeys, List.mem_cons, List.not_mem_nil, or_false] at hk
          rcases hk with hk | hk | hk | hk | hk | hk | hk | hk
          exacts [e1 hk, e2 hk, e3 hk, e4 hk, e5 hk, e6 hk, e7 hk, e8 hk]
      show lookupKey (Product.to_dict _) k = lookupKey m k
      unfold Product.to_dict
      rw [lookupKey_cons_ne _ _ _ _ e1, lookupKey_cons_ne _ _ _ _ e2,
        lookupKey_cons_ne _ _ _ _ e3, lookupKey_cons_ne _ _ _ _ e4,
        lookupKey_cons_ne _ _ _ _ e5, lookupKey_cons_ne _ _ _ _ e6,
        lookupKey_cons_ne _ _ _ _ e7, lookupKey_cons_ne _ _ _ _ e8,
        lookupKey_nil, hnone]
  · intro hwf
    unfold wellFormedTransactionDict at hwf
    simp only [Bool.and_eq_true] at hwf
    obtain ⟨⟨⟨⟨⟨⟨h1, h2⟩, h3⟩, h4⟩, h5⟩, h6⟩, hall⟩ := hwf
    obtain ⟨ti, hti⟩ := isStrV_extract h1
    obtain ⟨ps, hps⟩ := isStrV_extract h2
    obtain ⟨n, hn⟩ := isIntV_extract h3
    obtain ⟨tt, htt⟩ := isStrV_extract h4
    obtain ⟨ts, hts, htsiso⟩ := isTimeV_extract h5
    obtain ⟨nt, hnt⟩ := isStrV_extract h6
    refine ⟨⟨ps, n, tt, ti, ⟨ts⟩, nt⟩, ?_, ?_⟩
    · simp only [Transaction.from_dict, getStr, getInt, hps, hn, htt, hti, hts,
        isoParse, htsiso, if_true, hnt]
    · intro k
      by_cases e1 : k = "transaction_id"
      · subst e1
        rw [toDict_tid]
        exact hti.symm
      by_cases e2 : k = "product_sku"
      · subst e2
        rw [toDict_psku]
        exact hps.symm
      by_cases e3 : k = "quantity"
      · subst e3
        rw [toDict_qty]
        exact hn.symm
      by_cases e4 : k = "transaction_type"
      · subst e4
        rw [toDict_ttype]
        exact htt.symm
      by_cases e5 : k = "timestamp"
      · subst e5
        rw [toDict_ts]
        exact hts.symm
      by_cases e6 : k = "notes"
      · subst e6
        rw [toDict_notes]
        exact hnt.symm
      have hnone : lookupKey m k = none := by
        cases hlk : lookupKey m k with
        | none => rfl
        | some v =>
          exfalso
          obtain ⟨kv, hmem, hfst⟩ := lookup_mem hlk
          have hcont := List.all_eq_true.mp hall kv hmem
          rw [hfst] at hcont
          have hk : k ∈ transactionKeys := by simpa using hcont
          simp only [transactionKeys, List.mem_cons, List.not_mem_nil, or_false] at hk
          rcases hk with hk | hk | hk | hk | hk | hk
          exacts [e1 hk, e2 hk, e3 hk, e4 hk, e5 hk, e6 hk]
      show lookupKey (Transaction.to_dict _) k = lookupKey m k
      unfold Transaction.to_dict
      rw [lookupKey_cons_ne _ _ _ _ e1, lookupKey_cons_ne _ _ _ _ e2,
        lookupKey_cons_ne _ _ _ _ e3, lookupKey_cons_ne _ _ _ _ e4,
        lookupKey_cons_ne _ _ _ _ e5, lookupKey_cons_ne _ _ _ _ e6,
        lookupKey_nil, hnone]

def exProductDict : JDict :=
  [("sku", .str "SKU1"), ("name", .str "Widget"), ("description", .str "D"),
   ("category", .str "FOOD"), ("price", .rat 10), ("stock_quantity", .int 3),
   ("created_at", .str "2024-01-01T00:00:00"),
   ("updated_at", .str "2024-01-01T00:00:00")]

/-- Witness for C8 at a concrete well-formed product mapping. -/
theorem C8_witness :
    wellFormedProductDict exProductDict = true
    ∧ ∃ p, Product.from_dict exProductDict = some p
        ∧ dictEq (Product.to_dict p) exProductDict :=
  ⟨by decide, (C8_roundtrip exProductDict).1 (by decide)⟩

/-- The five always-required transaction fields present and parseable. -/
def reqTransactionFieldsOk (m : JDict) : Bool :=
  (getStr m "product_sku").isSome && (getInt m "quantity").isSome
    && (getStr m "transaction_type").isSome && (getStr m "transaction_id").isSome
    && (match getStr m "timestamp" with
        | some s => (isoParse s).isSome
        | none => false)

/-- The eight required product fields present and parseable. -/
def reqProductFieldsOk (m : JDict) : Bool :=
  (getStr m "name").isSome && (getStr m "description").isSome
    && (match getStr m "category" with
        | some s => (categoryOfName s).isSome
        | none => false)
    && (getRat m "price").isSome && (getInt m "stock_quantity").isSome
    && (getStr m "sku").isSome
    && (match getStr m "created_at" with
        | some s => (isoParse s).isSome
        | none => false)
    && (match getStr m "updated_at" with
        | some s => (isoParse s).isSome
        | none => false)

/-- A transaction mapping with all fields except `notes`. -/
def txNoNotes : JDict :=
  [("transaction_id", .str "T1"), ("product_sku", .str "SKU1"),
   ("quantity", .int 5), ("transaction_type", .str "sale"),
   ("timestamp", .str "2024-01-02T03:04:05")]

/-- C9 counterexample: a transaction mapping missing the `notes` field is
accepted by `Transaction.from_dict` (the source reads `notes` with
`data.get('notes', "")`), contradicting the claim that a mapping missing
any of the six listed fields is rejected. -/
theorem C9_counterexample :
    (Transaction.from_dict txNoNotes).isSome = true
    ∧ lookupKey txNoNotes "notes" = none := by
  constructor
  · decide
  · rfl

/-- C9 (amended): conversion from a mapping succeeds only when every
required field is present and parseable — all eight product fields with a
valid category name and parseable timestamps, and the five transaction
fields `transaction_id`, `product_sku`, `quantity`, `transaction_type`,
`timestamp` with a parseable timestamp — so a mapping missing any of
those fields, or with an unparseable enum or timestamp value, is
rejected; the `notes` field alone is optional and defaults to the empty
string when absent. -/
theorem C9_required_fields (m : JDict) :
    (∀ p, Product.from_dict m = some p → reqProductFieldsOk m = true)
    ∧ (∀ t, Transaction.from_dict m = some t → reqTransactionFieldsOk m = true)
    ∧ (reqTransactionFieldsOk m = true → lookupKey m "notes" = none →
        ∃ t, Transaction.from_dict m = some t ∧ t.notes = "") := by
  refine ⟨?_, ?_, ?_⟩
  · intro p hp
    unfold Product.from_dict at hp
    repeat' first
      | exact Option.noConfusion hp
      | split at hp
    all_goals simp [reqProductFieldsOk, *]
  · intro t ht
    unfold Transaction.from_dict at ht
    repeat' first
      | exact Option.noConfusion ht
      | split at ht
    all_goals simp [reqTransactionFieldsOk, *]
  · intro hreq hnotes
    unfold reqTransactionFieldsOk at hreq
    simp only [Bool.and_eq_true] at hreq
    obtain ⟨⟨⟨⟨h1, h2⟩, h3⟩, h4⟩, h5⟩ := hreq
    rw [Option.isSome_iff_exists] at h1 h2 h3 h4
    obtain ⟨ps, hps⟩ := h1
    obtain ⟨n, hn⟩ := h2
    obtain ⟨tt, htt⟩ := h3
    obtain ⟨ti, hti⟩ := h4
    cases hts : getStr m "timestamp" with
    | none =>
      rw [hts] at h5
      cases h5
    | some ts =>
      rw [hts] at h5
      rw [Option.isSome_iff_exists] at h5
      obtain ⟨d, hd⟩ := h5
      refine ⟨⟨ps, n, tt, ti, d, ""⟩, ?_, rfl⟩
      simp only [Transaction.from_dict, hps, hn, htt, hti, hts, hd, hnotes]

/-- Witness for C9 (amended): the notes-defaulting clause evaluated at the
concrete mapping missing `notes`. -/
theorem C9_witness :
    reqTransactionFieldsOk txNoNotes = true
    ∧ ∃ t, Transaction.from_dict txNoNotes = some t ∧ t.notes = "" :=
  ⟨by decide, (C9_required_fields txNoNotes).2.2 (by decide) rfl⟩
